import Mathlib

/-!
Shallow embedding of the stream-framing core of the RSerialDebugAssistant
serial-terminal backend (Rust sources `src-tauri/src/types.rs`,
`src-tauri/src/serial_manager.rs`, `src-tauri/src/main.rs`), together with
theorems settling the specification claims about it.

Bytes are modelled as `Nat` (values 0..255 in all reachable states), byte
buffers as `List Nat` (index 0 = front of the buffer), and Rust `String`
text as lists of Unicode scalar values (`List Nat`), converted to a Lean
`String` only at the outer boundary of the display formatter.
-/

namespace RSerial

/-- Mirror of `types.rs` `FrameSegmentationMode`: the code has exactly the
two variants `Timeout` (the `Default`) and `Combined`. -/
inductive FrameSegmentationMode
  | Timeout
  | Combined
  deriving DecidableEq, Repr, Fintype

/-- Mirror of `types.rs` `FrameDelimiter`. -/
inductive FrameDelimiter
  | AnyNewline
  | CR
  | LF
  | CRLF
  | Custom (bytes : List Nat)
  deriving DecidableEq, Repr

namespace FrameDelimiter

/-- Mirror of `FrameDelimiter::to_bytes` in `types.rs`. -/
def to_bytes : FrameDelimiter → List Nat
  | AnyNewline => []
  | CR => [0x0D]
  | LF => [0x0A]
  | CRLF => [0x0D, 0x0A]
  | Custom bytes => bytes

/-- Mirror of `FrameDelimiter::is_any_newline` in `types.rs`. -/
def is_any_newline : FrameDelimiter → Bool
  | AnyNewline => true
  | _ => false

end FrameDelimiter

/-- Mirror of `types.rs` `FrameSegmentationConfig`. -/
structure FrameSegmentationConfig where
  mode : FrameSegmentationMode
  timeout_ms : Nat
  delimiter : FrameDelimiter
  deriving DecidableEq, Repr

/-- Mirror of `Default for FrameSegmentationConfig` in `types.rs`. -/
def FrameSegmentationConfig.default : FrameSegmentationConfig :=
  { mode := FrameSegmentationMode.Timeout
    timeout_ms := 10
    delimiter := FrameDelimiter.AnyNewline }

/-- Mirror of `find_delimiter` in `serial_manager.rs`: first byte offset
where `delimiter` occurs as a contiguous subsequence of `data`
(`data.windows(delimiter.len()).position(|w| w == delimiter)`), `none`
when the delimiter is empty or longer than the buffer. -/
def find_delimiter (data delimiter : List Nat) : Option Nat :=
  if delimiter.isEmpty || data.length < delimiter.length then none
  else go data
where
  /-- Scan of the window positions, left to right. -/
  go : List Nat → Option Nat
    | [] => none
    | b :: rest =>
      if delimiter.isPrefixOf (b :: rest) then some 0
      else (go rest).map (· + 1)

/-- Mirror of `find_any_newline` in `serial_manager.rs`: scan left to
right; on CR (0x0D) immediately followed by LF (0x0A) return the CR
position with length 2; on CR alone or LF alone return length 1. -/
def find_any_newline : List Nat → Option (Nat × Nat)
  | [] => none
  | b :: rest =>
    if b = 0x0D then
      match rest with
      | 0x0A :: _ => some (0, 2)
      | _ => some (0, 1)
    else if b = 0x0A then
      some (0, 1)
    else
      (find_any_newline rest).map (fun pl => (pl.1 + 1, pl.2))

/-- Helper: a byte that is neither CR nor LF. -/
def notNewline (b : Nat) : Prop := b ≠ 0x0D ∧ b ≠ 0x0A

instance (b : Nat) : Decidable (notNewline b) := by
  unfold notNewline; infer_instance

lemma find_any_newline_nil : find_any_newline [] = none := rfl

/-- One-step characterization of `find_any_newline` on a cons cell. -/
lemma find_any_newline_cons (b : Nat) (rest : List Nat) :
    find_any_newline (b :: rest) =
      if b = 0x0D then
        (if rest.head? = some 0x0A then some (0, 2) else some (0, 1))
      else if b = 0x0A then some (0, 1)
      else (find_any_newline rest).map (fun pl => (pl.1 + 1, pl.2)) := by
  cases rest with
  | nil => simp [find_any_newline]
  | cons c r =>
    by_cases hc : c = 0x0A
    · subst hc; simp [find_any_newline]
    · simp only [find_any_newline, List.head?_cons]
      split
      · rename_i h
        split <;> simp_all
      · rfl

/-- Skipping a non-newline prefix shifts the reported position. -/
lemma find_any_newline_append (pre t : List Nat) (h : ∀ b ∈ pre, notNewline b) :
    find_any_newline (pre ++ t) =
      (find_any_newline t).map (fun pl => (pl.1 + pre.length, pl.2)) := by
  induction pre with
  | nil =>
    simp only [List.nil_append, List.length_nil]
    cases hf : find_any_newline t with
    | none => simp
    | some pl => simp
  | cons b rest ih =>
    have hb : notNewline b := h b (List.mem_cons_self ..)
    have hrest : ∀ x ∈ rest, notNewline x := fun x hx => h x (List.mem_cons_of_mem _ hx)
    rw [List.cons_append, find_any_newline_cons, if_neg hb.1, if_neg hb.2, ih hrest]
    cases hf : find_any_newline t with
    | none => simp
    | some pl =>
      simp only [Option.map_some', Option.some.injEq, Prod.mk.injEq, List.length_cons]
      exact ⟨by omega, trivial⟩

lemma find_any_newline_none (l : List Nat) (h : ∀ b ∈ l, notNewline b) :
    find_any_newline l = none := by
  have := find_any_newline_append l [] h
  simpa using this

/-- A some-result always has positive length component. -/
lemma find_any_newline_len_pos {l : List Nat} {p n : Nat}
    (h : find_any_newline l = some (p, n)) : 0 < n := by
  induction l generalizing p n with
  | nil => simp [find_any_newline] at h
  | cons b rest ih =>
    rw [find_any_newline_cons] at h
    by_cases hb : b = 0x0D
    · rw [if_pos hb] at h
      by_cases hh : rest.head? = some 0x0A
      · rw [if_pos hh] at h
        simp only [Option.some.injEq, Prod.mk.injEq] at h
        omega
      · rw [if_neg hh] at h
        simp only [Option.some.injEq, Prod.mk.injEq] at h
        omega
    · rw [if_neg hb] at h
      by_cases hb2 : b = 0x0A
      · rw [if_pos hb2] at h
        simp only [Option.some.injEq, Prod.mk.injEq] at h
        omega
      · rw [if_neg hb2] at h
        cases hf : find_any_newline rest with
        | none => rw [hf] at h; simp at h
        | some pl =>
          rw [hf] at h
          simp only [Option.map_some', Option.some.injEq, Prod.mk.injEq] at h
          have h2 := ih (p := pl.1) (n := pl.2) (by rw [hf])
          omega

/-- A some-result only occurs on a nonempty buffer. -/
lemma find_any_newline_ne_nil {l : List Nat} {pl : Nat × Nat}
    (h : find_any_newline l = some pl) : l ≠ [] := by
  intro he; subst he; simp [find_any_newline] at h

/-! ### Display formatter (`serial_manager.rs` bottom section) -/

/-- Mirror of `types.rs` `TextEncoding`. -/
inductive TextEncoding
  | Utf8
  | Gbk
  deriving DecidableEq, Repr

/-- Mirror of `types.rs` `ReceiveDisplayFormat`. -/
inductive ReceiveDisplayFormat
  | Txt
  | Hex
  deriving DecidableEq, Repr

/-- Mirror of `types.rs` `SpecialCharConfig`. -/
structure SpecialCharConfig where
  enabled : Bool
  convert_lf : Bool
  convert_cr : Bool
  convert_tab : Bool
  convert_null : Bool
  convert_esc : Bool
  convert_spaces : Bool
  deriving DecidableEq, Repr

/-- Mirror of `Default for SpecialCharConfig` in `types.rs` (all toggles on). -/
def SpecialCharConfig.default : SpecialCharConfig :=
  ⟨true, true, true, true, true, true, true⟩

/-- Mirror of `types.rs` `DisplaySettings`. -/
structure DisplaySettings where
  format : ReceiveDisplayFormat
  encoding : TextEncoding
  special_char_config : SpecialCharConfig
  show_timestamps : Bool
  deriving DecidableEq, Repr

/-- Mirror of `Default for DisplaySettings` in `types.rs`. -/
def DisplaySettings.default : DisplaySettings :=
  ⟨ReceiveDisplayFormat.Txt, TextEncoding.Utf8, SpecialCharConfig.default, true⟩

/-- Upper-case hex digit for a value 0..15 (`{:X}` of one nibble). -/
def hexDigit (n : Nat) : Char :=
  if n < 10 then Char.ofNat (48 + n) else Char.ofNat (55 + n)

/-- Rendering of one byte as `format!("\x7b:02X\x7d", b)`: two uppercase hex
digits (every byte value is < 256, so exactly two digits). -/
def byte_to_hex (b : Nat) : String :=
  String.mk [hexDigit (b / 16 % 16), hexDigit (b % 16)]

/-- Mirror of `format_bytes_as_hex` in `serial_manager.rs`: each byte as two
uppercase hex digits, joined by single spaces. -/
def format_bytes_as_hex (data : List Nat) : String :=
  String.intercalate " " (data.map byte_to_hex)

/-- UTF-8 continuation byte test (0x80..=0xBF). -/
def is_utf8_cont (b : Nat) : Bool := 0x80 ≤ b && b ≤ 0xBF

/-- One scalar of strict UTF-8: given the lead byte `b` and the bytes
after it, return the decoded Unicode scalar value and the remaining bytes,
or `none` if `b` does not start a valid sequence here. Shortest-form
encoding is enforced by the lead-byte/second-byte ranges; `0xED` excludes
surrogates and `0xF4` caps at U+10FFFF. -/
def utf8_step (b : Nat) (rest : List Nat) : Option (Nat × List Nat) :=
  if b ≤ 0x7F then some (b, rest)
  else if 0xC2 ≤ b && b ≤ 0xDF then
    match rest with
    | b2 :: rest2 =>
      if is_utf8_cont b2 then some ((b - 0xC0) * 0x40 + (b2 - 0x80), rest2)
      else none
    | [] => none
  else if b = 0xE0 then
    match rest with
    | b2 :: b3 :: rest3 =>
      if (0xA0 ≤ b2 && b2 ≤ 0xBF) && is_utf8_cont b3 then
        some ((b - 0xE0) * 0x1000 + (b2 - 0x80) * 0x40 + (b3 - 0x80), rest3)
      else none
    | _ => none
  else if (0xE1 ≤ b && b ≤ 0xEC) || (0xEE ≤ b && b ≤ 0xEF) then
    match rest with
    | b2 :: b3 :: rest3 =>
      if is_utf8_cont b2 && is_utf8_cont b3 then
        some ((b - 0xE0) * 0x1000 + (b2 - 0x80) * 0x40 + (b3 - 0x80), rest3)
      else none
    | _ => none
  else if b = 0xED then
    match rest with
    | b2 :: b3 :: rest3 =>
      if (0x80 ≤ b2 && b2 ≤ 0x9F) && is_utf8_cont b3 then
        some ((b - 0xE0) * 0x1000 + (b2 - 0x80) * 0x40 + (b3 - 0x80), rest3)
      else none
    | _ => none
  else if b = 0xF0 then
    match rest with
    | b2 :: b3 :: b4 :: rest4 =>
      if (0x90 ≤ b2 && b2 ≤ 0xBF) && is_utf8_cont b3 && is_utf8_cont b4 then
        some ((b - 0xF0) * 0x40000 + (b2 - 0x80) * 0x1000 +
          (b3 - 0x80) * 0x40 + (b4 - 0x80), rest4)
      else none
    | _ => none
  else if 0xF1 ≤ b && b ≤ 0xF3 then
    match rest with
    | b2 :: b3 :: b4 :: rest4 =>
      if is_utf8_cont b2 && is_utf8_cont b3 && is_utf8_cont b4 then
        some ((b - 0xF0) * 0x40000 + (b2 - 0x80) * 0x1000 +
          (b3 - 0x80) * 0x40 + (b4 - 0x80), rest4)
      else none
    | _ => none
  else if b = 0xF4 then
    match rest with
    | b2 :: b3 :: b4 :: rest4 =>
      if (0x80 ≤ b2 && b2 ≤ 0x8F) && is_utf8_cont b3 && is_utf8_cont b4 then
        some ((b - 0xF0) * 0x40000 + (b2 - 0x80) * 0x1000 +
          (b3 - 0x80) * 0x40 + (b4 - 0x80), rest4)
      else none
    | _ => none
  else none

lemma utf8_step_length {b : Nat} {rest : List Nat} {sr : Nat × List Nat}
    (h : utf8_step b rest = some sr) : sr.2.length ≤ rest.length := by
  unfold utf8_step at h
  repeat' split at h
  all_goals simp_all
  all_goals subst h
  all_goals simp
  all_goals omega

/-- Model of `std::str::from_utf8` validation and decoding (the Rust
standard library call used by `format_bytes_as_text`): strict UTF-8,
decoded scalar by scalar through `utf8_step`; `none` on any invalid
input. -/
def utf8_decode : List Nat → Option (List Nat)
  | [] => some []
  | b :: rest =>
    match h : utf8_step b rest with
    | some sr => (utf8_decode sr.2).map (sr.1 :: ·)
    | none => none
termination_by l => l.length
decreasing_by
  have hlen := utf8_step_length h
  simp only [List.length_cons]
  omega

/-- Replacement of every occurrence of scalar `c` by scalar `r`
(`String::replace` of one char by a one-char string). -/
def replace_char (c r : Nat) (text : List Nat) : List Nat :=
  text.map (fun x => if x = c then r else x)

/-- Mirror of Rust `str::split('\n')` on scalar values: split on every LF,
keeping empty segments (the result always has one more segment than the
number of LFs). -/
def split_on_lf : List Nat → List (List Nat)
  | [] => [[]]
  | c :: rest =>
    if c = 0x0A then [] :: split_on_lf rest
    else
      match split_on_lf rest with
      | l :: ls => (c :: l) :: ls
      | [] => [[c]]

/-- Mirror of `line.trim_end_matches(' ')`: remove all trailing spaces. -/
def trim_end_spaces (line : List Nat) : List Nat :=
  (line.reverse.dropWhile (· == 0x20)).reverse

/-- One line of the trailing-space pass of `format_bytes_as_text`: the line
with its trailing spaces replaced by U+2423 (open box). -/
def fix_line (line : List Nat) : List Nat :=
  let trimmed_end := trim_end_spaces line
  trimmed_end ++ List.replicate (line.length - trimmed_end.length) 0x2423

/-- Mirror of the first half of the `convert_spaces` block of
`format_bytes_as_text`: split on LF, replace each line's trailing spaces
by U+2423, and re-join with LF — with the source's exact join rule
(`if !new_result.is_empty() \x7b new_result.push('\n') \x7d`), which skips the
separator as long as the accumulated result is still empty. -/
def convert_trailing_spaces (text : List Nat) : List Nat :=
  (split_on_lf text).foldl
    (fun acc line => (if acc.isEmpty then acc else acc ++ [0x0A]) ++ fix_line line) []

/-- Emission of a pending run of `k` spaces in the interior-space pass:
runs of two or more become U+2423 glyphs, a single space stays a space. -/
def flush_spaces (k : Nat) : List Nat :=
  if 2 ≤ k then List.replicate k 0x2423 else if k = 1 then [0x20] else []

/-- Mirror of the second half of the `convert_spaces` block of
`format_bytes_as_text`: scan with a space counter (`space_count`), emitting
each run through `flush_spaces` when a non-space is met and at the end. -/
def convert_interior_spaces_go (k : Nat) : List Nat → List Nat
  | [] => flush_spaces k
  | c :: rest =>
    if c = 0x20 then convert_interior_spaces_go (k + 1) rest
    else flush_spaces k ++ c :: convert_interior_spaces_go 0 rest

/-- The whole `convert_spaces` block of `format_bytes_as_text`. -/
def convert_spaces_visual (text : List Nat) : List Nat :=
  convert_interior_spaces_go 0 (convert_trailing_spaces text)

/-- The special-character substitution tail of `format_bytes_as_text`
(everything after decoding), over Unicode scalar values. The glyph scalars
are U+240A, U+240D, U+2409, U+2400, U+241B and U+2423 — the characters the
source writes literally. -/
def apply_special_chars (special_chars : SpecialCharConfig) (text : List Nat) : List Nat :=
  if !special_chars.enabled then text
  else
    let r := text
    let r := if special_chars.convert_lf then replace_char 0x0A 0x240A r else r
    let r := if special_chars.convert_cr then replace_char 0x0D 0x240D r else r
    let r := if special_chars.convert_tab then replace_char 0x09 0x2409 r else r
    let r := if special_chars.convert_null then replace_char 0x00 0x2400 r else r
    let r := if special_chars.convert_esc then replace_char 0x1B 0x241B r else r
    if special_chars.convert_spaces then convert_spaces_visual r else r

/-- Conversion of decoded scalar values to a Lean `String` (the model
boundary: every scalar produced by decoding or substitution is a valid
Unicode scalar value, so `Char.ofNat` never hits its fallback). -/
def scalars_to_string (l : List Nat) : String :=
  String.mk (l.map Char.ofNat)

/-- Mirror of `format_bytes_as_text` in `serial_manager.rs`. The first
argument models the external `encoding_rs::GBK.decode` library call as an
abstract decoder returning the decoded scalars plus a `had_errors` flag;
`std::str::from_utf8` is modelled concretely by `utf8_decode`. On decode
failure the function returns the hex rendering of the whole payload and
applies no substitution. -/
def format_bytes_as_text (gbk_decode : List Nat → List Nat × Bool)
    (data : List Nat) (encoding : TextEncoding)
    (special_chars : SpecialCharConfig) : String :=
  match encoding with
  | TextEncoding.Utf8 =>
    match utf8_decode data with
    | some text => scalars_to_string (apply_special_chars special_chars text)
    | none => format_bytes_as_hex data
  | TextEncoding.Gbk =>
    let (decoded, had_errors) := gbk_decode data
    if had_errors then format_bytes_as_hex data
    else scalars_to_string (apply_special_chars special_chars decoded)

/-- Mirror of `format_data_for_display` in `serial_manager.rs`. -/
def format_data_for_display (gbk_decode : List Nat → List Nat × Bool)
    (data : List Nat) (settings : DisplaySettings) : String :=
  match settings.format with
  | ReceiveDisplayFormat.Hex => format_bytes_as_hex data
  | ReceiveDisplayFormat.Txt =>
    format_bytes_as_text gbk_decode data settings.encoding settings.special_char_config

/-! ### Log-entry data model (`types.rs`) -/

/-- Mirror of `types.rs` `DataFormat`. -/
inductive DataFormat
  | Text
  | Hex
  deriving DecidableEq, Repr

/-- Mirror of `types.rs` `Direction`. -/
inductive Direction
  | Sent
  | Received
  deriving DecidableEq, Repr

/-- Mirror of `types.rs` `LogEntry`. The `DateTime<Utc>` creation
timestamp is modelled as an abstract `Nat` instant. -/
structure LogEntry where
  id : Option Int
  timestamp : Nat
  direction : Direction
  data : List Nat
  format : DataFormat
  port_name : String
  display_text : String
  timestamp_formatted : Option String
  deriving DecidableEq, Repr

/-! ### Frame segmentation engine (reader thread of `connect`,
`serial_manager.rs`) -/

lemma find_delimiter_some_facts {data delimiter : List Nat} {p : Nat}
    (h : find_delimiter data delimiter = some p) :
    0 < delimiter.length ∧ delimiter.length ≤ data.length := by
  unfold find_delimiter at h
  by_cases hg : delimiter.isEmpty || decide (data.length < delimiter.length)
  · rw [if_pos hg] at h; exact absurd h (by simp)
  · simp only [Bool.or_eq_true, decide_eq_true_eq, not_or, List.isEmpty_iff] at hg
    constructor
    · have : delimiter ≠ [] := hg.1
      exact List.length_pos.mpr this
    · omega

/-- The `while let Some((pos, len)) = find_any_newline(..)` loop body of the
reader thread (Combined mode, `AnyNewline` delimiter): repeatedly drain
everything up to and including the newline as one frame; returns the frames
in emission order and the remaining accumulation buffer. -/
def drain_frames_any_newline (acc : List Nat) : List (List Nat) × List Nat :=
  match h : find_any_newline acc with
  | some pl =>
    let frame_end := pl.1 + pl.2
    let frame := acc.take frame_end
    let rest := acc.drop frame_end
    let result := drain_frames_any_newline rest
    (frame :: result.1, result.2)
  | none => ([], acc)
termination_by acc.length
decreasing_by
  have hpos : 0 < pl.2 := find_any_newline_len_pos (by rw [h])
  have hne : acc ≠ [] := find_any_newline_ne_nil h
  have hlen : 0 < acc.length := List.length_pos.mpr hne
  simp only [List.length_drop]
  omega

/-- The `while let Some(pos) = find_delimiter(..)` loop body of the reader
thread (Combined mode, fixed delimiter bytes): repeatedly drain everything
up to and including the delimiter as one frame. -/
def drain_frames_delimiter (delimiter_bytes : List Nat) (acc : List Nat) :
    List (List Nat) × List Nat :=
  match h : find_delimiter acc delimiter_bytes with
  | some pos =>
    let frame_end := pos + delimiter_bytes.length
    let frame := acc.take frame_end
    let rest := acc.drop frame_end
    let result := drain_frames_delimiter delimiter_bytes rest
    (frame :: result.1, result.2)
  | none => ([], acc)
termination_by acc.length
decreasing_by
  have hfacts := find_delimiter_some_facts h
  simp only [List.length_drop]
  omega

/-- One successful-read iteration of the reader thread
(`Ok(bytes_read) if bytes_read > 0` arm): append the newly read bytes to
the accumulation buffer, then — only when the segmentation mode is
`Combined` — run the delimiter drain loop (`AnyNewline` handled specially,
every other delimiter through its `to_bytes`). Returns the frames emitted
by this iteration and the new accumulation buffer. -/
def process_read (seg_config : FrameSegmentationConfig)
    (accumulated_data new_bytes : List Nat) : List (List Nat) × List Nat :=
  let acc := accumulated_data ++ new_bytes
  if seg_config.mode = FrameSegmentationMode.Combined then
    if seg_config.delimiter.is_any_newline then
      drain_frames_any_newline acc
    else
      drain_frames_delimiter seg_config.delimiter.to_bytes acc
  else ([], acc)

/-- The `should_flush_timeout` condition of the `Ok(0)` and
`ErrorKind::TimedOut` arms of the reader thread. The comparison
`last_data_time.elapsed() > timeout_duration` is modelled by the boolean
`idle_exceeded`. -/
def should_flush_timeout (seg_config : FrameSegmentationConfig)
    (accumulated_data : List Nat) (idle_exceeded : Bool) : Bool :=
  (decide (seg_config.mode = FrameSegmentationMode.Timeout) ||
    decide (seg_config.mode = FrameSegmentationMode.Combined)) &&
  !accumulated_data.isEmpty && idle_exceeded

/-- One idle iteration of the reader thread (zero-byte read or read
timeout): when `should_flush_timeout` holds, the whole accumulation buffer
is emitted as one frame and cleared; otherwise nothing happens. -/
def process_idle (seg_config : FrameSegmentationConfig)
    (accumulated_data : List Nat) (idle_exceeded : Bool) :
    Option (List Nat) × List Nat :=
  if should_flush_timeout seg_config accumulated_data idle_exceeded then
    (some accumulated_data, [])
  else (none, accumulated_data)

/-- Construction of the `LogEntry` the reader thread pushes for one emitted
frame: direction `Received`, raw frame bytes as data, display text from the
current display settings, and a pre-formatted timestamp string only when
`show_timestamps` is set. `now` and `now_str` model `Utc::now()` and
`format_timestamp_with_offset`. -/
def make_received_entry (gbk_decode : List Nat → List Nat × Bool)
    (now : Nat) (now_str : String) (port_name : String)
    (disp_settings : DisplaySettings) (frame_data : List Nat) : LogEntry :=
  { id := none
    timestamp := now
    direction := Direction.Received
    data := frame_data
    format := DataFormat.Text
    port_name := port_name
    display_text := format_data_for_display gbk_decode frame_data disp_settings
    timestamp_formatted := if disp_settings.show_timestamps then some now_str else none }

/-! ### Bounded log buffer (`add_log`, `set_max_log_entries`) -/

/-- The `while logs.len() > max_entries \x7b logs.pop_front(); \x7d` eviction loop:
pop from the front until the buffer satisfies the bound. -/
def pop_front_while_over (max_entries : Nat) : List LogEntry → List LogEntry
  | [] => []
  | e :: rest =>
    if max_entries < (e :: rest).length then pop_front_while_over max_entries rest
    else e :: rest

/-- Mirror of `SerialManager::add_log`: push the entry at the back, then
evict from the front while the bound is exceeded. -/
def add_log (max_entries : Nat) (logs : List LogEntry) (entry : LogEntry) : List LogEntry :=
  pop_front_while_over max_entries (logs ++ [entry])

/-- Rust `Ord::clamp(lo, hi)` on usize. -/
def clamp_usize (v lo hi : Nat) : Nat :=
  if v < lo then lo else if hi < v then hi else v

/-- Mirror of `SerialManager::set_max_log_entries`: clamp the requested
limit to `[100, 10000]`, store it, and trim existing logs from the front
until they satisfy the new bound. Returns the new limit and buffer. -/
def set_max_log_entries (requested : Nat) (logs : List LogEntry) : Nat × List LogEntry :=
  let max_entries := clamp_usize requested 100 10000
  (max_entries, pop_front_while_over max_entries logs)

/-! ### Connection manager state (`SerialManager`, `serial_manager.rs`) -/

/-- Mirror of `types.rs` `DataBits`. -/
inductive DataBits
  | Five
  | Six
  | Seven
  | Eight
  deriving DecidableEq, Repr

/-- Mirror of `types.rs` `Parity`. -/
inductive Parity
  | None
  | Odd
  | Even
  | Mark
  | Space
  deriving DecidableEq, Repr

/-- Mirror of `types.rs` `StopBits`. -/
inductive StopBits
  | One
  | OnePointFive
  | Two
  deriving DecidableEq, Repr

/-- Mirror of `types.rs` `FlowControl`. -/
inductive FlowControl
  | None
  | Software
  | Hardware
  deriving DecidableEq, Repr

/-- Mirror of `types.rs` `SerialConfig`. -/
structure SerialConfig where
  baud_rate : Nat
  data_bits : DataBits
  parity : Parity
  stop_bits : StopBits
  flow_control : FlowControl
  timeout : Nat
  deriving DecidableEq, Repr

/-- Mirror of the private `SerialStats` struct of `serial_manager.rs`; the
`connection_time` instant is modelled as an abstract `Nat`. -/
structure SerialStats where
  bytes_sent : Nat
  bytes_received : Nat
  connection_time : Option Nat
  deriving DecidableEq, Repr

/-- Mirror of `SerialStats::default()`. -/
def SerialStats.default : SerialStats := ⟨0, 0, none⟩

/-- Mirror of the `SerialManager` struct: the in-memory state the
foreground API operates on. Transport and file handles carry no observable
data in this model, so `Box<dyn SerialPort>` and `File` are modelled by
`Option Unit` (handle present or absent). -/
structure SerialManagerState where
  current_port : Option Unit
  config : Option SerialConfig
  is_connected : Bool
  port_name : Option String
  logs : List LogEntry
  stats : SerialStats
  shutdown_flag : Bool
  max_log_entries : Nat
  frame_segmentation_config : FrameSegmentationConfig
  text_file : Option Unit
  raw_file : Option Unit
  text_file_path : Option String
  raw_file_path : Option String
  log_directory : String
  timezone_offset_minutes : Int
  display_settings : DisplaySettings
  deriving DecidableEq, Repr

/-- Mirror of `SerialManager::disconnect`: when connected, set the
shutdown flag, stop both recordings (`stop_all_recordings` takes both file
handles and paths), drop the port, clear connection identity and reset
statistics; when already disconnected the whole body is skipped. The
function always returns `Ok(())`. -/
def disconnect (m : SerialManagerState) : Except String Unit × SerialManagerState :=
  if m.is_connected then
    (Except.ok (), { m with
      shutdown_flag := true
      text_file := none
      text_file_path := none
      raw_file := none
      raw_file_path := none
      current_port := none
      is_connected := false
      port_name := none
      config := none
      stats := SerialStats.default })
  else (Except.ok (), m)

/-- Mirror of `SerialManager::send_data`. `write_result` models the
outcome of the synchronous `port.write_all(&data)` transport call (the
only fallible step); `now` and `now_str` model `Utc::now()` and
`format_timestamp_with_offset`. The two recording writes touch only the
files behind the (unchanged) handles, not the in-memory state. -/
def send_data (gbk_decode : List Nat → List Nat × Bool) (now : Nat) (now_str : String)
    (write_result : Except String Unit) (m : SerialManagerState) (data : List Nat) :
    Except String Unit × SerialManagerState :=
  if !m.is_connected then (Except.error "No port is currently open", m)
  else
    match m.current_port with
    | some _ =>
      match write_result with
      | Except.error e => (Except.error e, m)
      | Except.ok () =>
        let stats := { m.stats with bytes_sent := m.stats.bytes_sent + data.length }
        let disp_settings := m.display_settings
        let display_text := format_data_for_display gbk_decode data disp_settings
        let timestamp_formatted :=
          if disp_settings.show_timestamps then some now_str else none
        let entry : LogEntry :=
          { id := none
            timestamp := now
            direction := Direction.Sent
            data := data
            format := DataFormat.Text
            port_name := m.port_name.getD ""
            display_text := display_text
            timestamp_formatted := timestamp_formatted }
        (Except.ok (), { m with
          stats := stats
          logs := add_log m.max_log_entries m.logs entry })
    | none => (Except.error "No port available", m)

/-! ### Hex-input parsing of the `send_data` Tauri command (`main.rs`) -/

/-- Value of one ASCII hex digit byte (`char::to_digit(16)`), `none` for
any non-hex-digit byte. -/
def hex_digit_val (b : Nat) : Option Nat :=
  if 48 ≤ b ∧ b ≤ 57 then some (b - 48)
  else if 97 ≤ b ∧ b ≤ 102 then some (b - 87)
  else if 65 ≤ b ∧ b ≤ 70 then some (b - 55)
  else none

/-- Digit loop of `u8::from_str_radix(_, 16)` with the u8 overflow check
(values above 255 are a `PosOverflow` error). -/
def parse_hex_digits (acc : Nat) : List Nat → Option Nat
  | [] => some acc
  | b :: rest =>
    match hex_digit_val b with
    | some d => if acc * 16 + d ≤ 255 then parse_hex_digits (acc * 16 + d) rest else none
    | none => none

/-- Model of the Rust standard library call `u8::from_str_radix(s, 16)` on
the UTF-8 bytes of `s`: an optional single leading `+` sign is accepted
(a lone sign or an empty string is an error; `-` is not a valid digit for
an unsigned target), followed by at least one hex digit. -/
def from_str_radix_u8_hex (s : List Nat) : Option Nat :=
  match s with
  | [] => none
  | b :: rest =>
    if b = 0x2B then (if rest.isEmpty then none else parse_hex_digits 0 rest)
    else parse_hex_digits 0 (b :: rest)

/-- The two-bytes-at-a-time parse loop of the `DataFormat::Hex` arm of the
`send_data` command: each pair of cleaned input bytes goes through
`u8::from_str_radix(.., 16)`; any parse failure aborts with the
`"Invalid hex characters"` error. A trailing lone byte cannot occur under
the even-length guard. -/
def parse_hex_pairs : List Nat → Except String (List Nat)
  | [] => Except.ok []
  | b1 :: b2 :: rest =>
    match from_str_radix_u8_hex [b1, b2] with
    | some v => (parse_hex_pairs rest).map (fun bs => v :: bs)
    | none => Except.error "Invalid hex characters"
  | [_] => Except.error "Invalid hex characters"

/-- The `DataFormat::Hex` arm of the `send_data` command in `main.rs`:
strip spaces and newlines (`data.replace(" ", "").replace("\n", "")`),
reject odd byte length, then parse hex pairs. Input and output are the
UTF-8 bytes of the Rust strings. -/
def hex_string_to_bytes (data : List Nat) : Except String (List Nat) :=
  let cleaned := data.filter (fun b => !(b == 0x20) && !(b == 0x0A))
  if cleaned.length % 2 ≠ 0 then
    Except.error "Hex string must have even number of characters"
  else parse_hex_pairs cleaned

/-- The full hex-format send path of the `send_data` command: conversion
first, and only on success the `SerialManager::send_data` transport write.
A conversion error leaves the manager untouched — no write occurs. -/
def send_data_hex_command (gbk_decode : List Nat → List Nat × Bool)
    (now : Nat) (now_str : String) (write_result : Except String Unit)
    (m : SerialManagerState) (input : List Nat) :
    Except String Unit × SerialManagerState :=
  match hex_string_to_bytes input with
  | Except.error e => (Except.error e, m)
  | Except.ok bytes => send_data gbk_decode now now_str write_result m bytes

/-! ### Claim theorems -/

/-- C2: for every byte buffer, `find_any_newline` scans left to right
(any non-newline prefix only shifts the position); a CR immediately
followed by LF is reported as one boundary of length 2 at the CR position
— never as two boundaries of length 1 — while a CR not followed by LF and
a bare LF are reported as boundaries of length 1; the CRLF check wins over
the bare-LF check. -/
theorem claim_C2_any_newline_matcher (pre post : List Nat)
    (h : ∀ b ∈ pre, notNewline b) :
    find_any_newline (pre ++ 0x0D :: 0x0A :: post) = some (pre.length, 2)
    ∧ (post.head? ≠ some 0x0A →
        find_any_newline (pre ++ 0x0D :: post) = some (pre.length, 1))
    ∧ find_any_newline (pre ++ 0x0A :: post) = some (pre.length, 1) := by
  refine ⟨?_, ?_, ?_⟩
  · rw [find_any_newline_append pre _ h, find_any_newline_cons]
    simp
  · intro hpost
    rw [find_any_newline_append pre _ h, find_any_newline_cons]
    simp [hpost]
  · rw [find_any_newline_append pre _ h, find_any_newline_cons]
    simp

/-- Witness for C2 at pre = [0x41], post = [0x42]. -/
theorem claim_C2_any_newline_matcher_witness :
    find_any_newline ([0x41] ++ 0x0D :: 0x0A :: [0x42]) = some (1, 2)
    ∧ (([0x42] : List Nat).head? ≠ some 0x0A →
        find_any_newline ([0x41] ++ 0x0D :: [0x42]) = some (1, 1))
    ∧ find_any_newline ([0x41] ++ 0x0A :: [0x42]) = some (1, 1) :=
  claim_C2_any_newline_matcher [0x41] [0x42] (by decide)

/-- C10: a lone CR at the end of the buffer (every earlier byte being a
non-newline) is immediately reported as a boundary of length 1 — the
matcher does not wait for a possible LF in a later read — and therefore a
CRLF pair split across two reads (here `"A\r"` then `"\nB"`, processed in
Combined mode with the AnyNewline delimiter) yields two separate frames:
the CR-terminated `"A\r"`, then the LF-only frame `"\n"`. -/
theorem claim_C10_trailing_cr_split (pre : List Nat)
    (h : ∀ b ∈ pre, notNewline b) :
    find_any_newline (pre ++ [0x0D]) = some (pre.length, 1)
    ∧ process_read ⟨FrameSegmentationMode.Combined, 50, FrameDelimiter.AnyNewline⟩
        [] [0x41, 0x0D] = ([[0x41, 0x0D]], [])
    ∧ process_read ⟨FrameSegmentationMode.Combined, 50, FrameDelimiter.AnyNewline⟩
        [] [0x0A, 0x42] = ([[0x0A]], [0x42]) := by
  refine ⟨?_, ?_, ?_⟩
  · rw [find_any_newline_append pre _ h, find_any_newline_cons]
    simp
  · simp [process_read, FrameDelimiter.is_any_newline,
      drain_frames_any_newline, find_any_newline]
  · simp [process_read, FrameDelimiter.is_any_newline,
      drain_frames_any_newline, find_any_newline]

/-- Witness for C10 at pre = [0x41]. -/
theorem claim_C10_trailing_cr_split_witness :
    find_any_newline ([0x41] ++ [0x0D]) = some (1, 1)
    ∧ process_read ⟨FrameSegmentationMode.Combined, 50, FrameDelimiter.AnyNewline⟩
        [] [0x41, 0x0D] = ([[0x41, 0x0D]], [])
    ∧ process_read ⟨FrameSegmentationMode.Combined, 50, FrameDelimiter.AnyNewline⟩
        [] [0x0A, 0x42] = ([[0x0A]], [0x42]) :=
  claim_C10_trailing_cr_split [0x41] (by decide)

/-- Counterexample to C1 as stated: the claim presumes a `Delimiter`
segmentation mode among the code's modes, but `FrameSegmentationMode` in
`types.rs` has exactly the two variants `Timeout` and `Combined` — there
is no injection of three distinct modes into it, so no third
delimiter-only mode exists. -/
theorem claim_C1_counterexample :
    ¬ ∃ f : Fin 3 → FrameSegmentationMode, Function.Injective f := by
  decide

/-- C1 amended: the code has no delimiter-only mode (modes are `Timeout`
and `Combined`); in Combined mode with delimiter LF, input arriving as the
two reads `"AB"` then `"CD\n"` (with no timeout flush in between) produces
no frame after the first read and exactly one frame `"ABCD\n"` after the
second — and the per-frame `LogEntry` carries exactly those bytes as its
data; in the only other mode, `Timeout`, the same reads produce no frame
at all (no delimiter scanning happens outside Combined mode). -/
theorem claim_C1_delimiter_frame_amended (gbk_decode : List Nat → List Nat × Bool)
    (now : Nat) (now_str port_name : String) (disp : DisplaySettings) :
    process_read ⟨FrameSegmentationMode.Combined, 50, FrameDelimiter.LF⟩
      [] [0x41, 0x42] = ([], [0x41, 0x42])
    ∧ process_read ⟨FrameSegmentationMode.Combined, 50, FrameDelimiter.LF⟩
        [0x41, 0x42] [0x43, 0x44, 0x0A] = ([[0x41, 0x42, 0x43, 0x44, 0x0A]], [])
    ∧ (process_read ⟨FrameSegmentationMode.Combined, 50, FrameDelimiter.LF⟩
        [0x41, 0x42] [0x43, 0x44, 0x0A]).1.map
          (fun f => (make_received_entry gbk_decode now now_str port_name disp f).data)
        = [[0x41, 0x42, 0x43, 0x44, 0x0A]]
    ∧ process_read ⟨FrameSegmentationMode.Timeout, 50, FrameDelimiter.LF⟩
        [0x41, 0x42] [0x43, 0x44, 0x0A] = ([], [0x41, 0x42, 0x43, 0x44, 0x0A]) := by
  have h1 : process_read ⟨FrameSegmentationMode.Combined, 50, FrameDelimiter.LF⟩
      [0x41, 0x42] [0x43, 0x44, 0x0A] = ([[0x41, 0x42, 0x43, 0x44, 0x0A]], []) := by
    simp [process_read, FrameDelimiter.is_any_newline, FrameDelimiter.to_bytes,
      drain_frames_delimiter, find_delimiter, find_delimiter.go]
  refine ⟨?_, h1, ?_, ?_⟩
  · simp [process_read, FrameDelimiter.is_any_newline, FrameDelimiter.to_bytes,
      drain_frames_delimiter, find_delimiter, find_delimiter.go]
  · rw [h1]
    simp [make_received_entry]
  · simp [process_read]

/-- C4: in Combined mode with the AnyNewline delimiter, the single read
`"a\r\nb"` immediately yields exactly one frame `"a\r\n"` (whose LogEntry
data is exactly those bytes) with `"b"` left accumulated; an idle
iteration then flushes `"b"` as exactly one more frame once the idle time
exceeds `timeout_ms` — and not before. -/
theorem claim_C4_combined_mode (gbk_decode : List Nat → List Nat × Bool)
    (now : Nat) (now_str port_name : String) (disp : DisplaySettings) :
    process_read ⟨FrameSegmentationMode.Combined, 50, FrameDelimiter.AnyNewline⟩
      [] [0x61, 0x0D, 0x0A, 0x62] = ([[0x61, 0x0D, 0x0A]], [0x62])
    ∧ (process_read ⟨FrameSegmentationMode.Combined, 50, FrameDelimiter.AnyNewline⟩
        [] [0x61, 0x0D, 0x0A, 0x62]).1.map
          (fun f => (make_received_entry gbk_decode now now_str port_name disp f).data)
        = [[0x61, 0x0D, 0x0A]]
    ∧ process_idle ⟨FrameSegmentationMode.Combined, 50, FrameDelimiter.AnyNewline⟩
        [0x62] true = (some [0x62], [])
    ∧ process_idle ⟨FrameSegmentationMode.Combined, 50, FrameDelimiter.AnyNewline⟩
        [0x62] false = (none, [0x62]) := by
  have h1 : process_read ⟨FrameSegmentationMode.Combined, 50, FrameDelimiter.AnyNewline⟩
      [] [0x61, 0x0D, 0x0A, 0x62] = ([[0x61, 0x0D, 0x0A]], [0x62]) := by
    simp [process_read, FrameDelimiter.is_any_newline,
      drain_frames_any_newline, find_any_newline]
  refine ⟨h1, ?_, by decide, by decide⟩
  rw [h1]
  simp [make_received_entry]

lemma pop_front_while_over_eq_drop (m : Nat) (l : List LogEntry) :
    pop_front_while_over m l = l.drop (l.length - m) := by
  induction l with
  | nil => simp [pop_front_while_over]
  | cons e rest ih =>
    by_cases hc : m < (e :: rest).length
    · rw [pop_front_while_over, if_pos hc, ih]
      have hhh : (e :: rest).length - m = (rest.length - m) + 1 := by
        simp only [List.length_cons] at hc ⊢; omega
      rw [hhh, List.drop_succ_cons]
    · rw [pop_front_while_over, if_neg hc]
      have hhh : (e :: rest).length - m = 0 := by
        simp only [List.length_cons] at hc ⊢; omega
      rw [hhh, List.drop_zero]

lemma add_log_eq_drop (m : Nat) (logs : List LogEntry) (e : LogEntry) :
    add_log m logs e = (logs ++ [e]).drop ((logs ++ [e]).length - m) :=
  pop_front_while_over_eq_drop m (logs ++ [e])

lemma foldl_add_log (L : Nat) (es : List LogEntry) :
    ∀ init : List LogEntry, init.length ≤ L →
      es.foldl (add_log L) init = (init ++ es).drop ((init ++ es).length - L) := by
  induction es with
  | nil =>
    intro init h
    simp [Nat.sub_eq_zero_of_le h]
  | cons e es ih =>
    intro init h
    have hlen : (add_log L init e).length ≤ L := by
      rw [add_log_eq_drop]
      simp only [List.length_drop]
      omega
    rw [List.foldl_cons, ih _ hlen, add_log_eq_drop]
    have hA : ((init ++ [e]) ++ es) = init ++ e :: es := by simp
    have hk : (init ++ [e]).length - L ≤ (init ++ [e]).length := Nat.sub_le _ _
    rw [← List.drop_append_of_le_length hk, List.drop_drop, hA]
    congr 1
    simp only [List.length_drop, List.length_append, List.length_cons,
      List.length_nil]
    omega

/-- C3: with a limit L in [100, 10000], inserting N entries through
`add_log` into an initially empty buffer leaves exactly `min N L` entries,
namely the most recent ones in arrival order (`drop (N - L)` of the
insertion sequence); moreover every single `add_log` restores the bound
`length ≤ max_log_entries`, and `set_max_log_entries` clamps the requested
limit to [100, 10000] and restores the bound by evicting from the front. -/
theorem claim_C3_log_buffer_eviction (L : Nat) (h100 : 100 ≤ L) (hL : L ≤ 10000)
    (es logs : List LogEntry) (entry : LogEntry) (requested : Nat) :
    (es.foldl (add_log L) []).length = min es.length L
    ∧ es.foldl (add_log L) [] = es.drop (es.length - L)
    ∧ (add_log L logs entry).length ≤ L
    ∧ (set_max_log_entries requested logs).1 = clamp_usize requested 100 10000
    ∧ (set_max_log_entries requested logs).2
        = logs.drop (logs.length - clamp_usize requested 100 10000)
    ∧ (set_max_log_entries requested logs).2.length
        ≤ (set_max_log_entries requested logs).1 := by
  have hfold := foldl_add_log L es [] (by simp)
  refine ⟨?_, ?_, ?_, rfl, ?_, ?_⟩
  · rw [hfold]
    simp only [List.nil_append, List.length_drop]
    omega
  · rw [hfold]
    simp
  · rw [add_log_eq_drop]
    simp only [List.length_drop]
    omega
  · simp only [set_max_log_entries, pop_front_while_over_eq_drop]
  · simp only [set_max_log_entries, pop_front_while_over_eq_drop, List.length_drop]
    omega

/-- Witness for C3 at L = 100, a one-entry insertion sequence, a one-entry
existing buffer and a requested limit of 5 (clamped to 100). -/
theorem claim_C3_log_buffer_eviction_witness :
    (100 ≤ 100 ∧ 100 ≤ 10000)
    ∧ (([⟨none, 1, Direction.Sent, [], DataFormat.Text, "", "", none⟩] :
          List LogEntry).foldl (add_log 100) []).length = min 1 100
    ∧ ([⟨none, 1, Direction.Sent, [], DataFormat.Text, "", "", none⟩] :
          List LogEntry).foldl (add_log 100) []
        = ([⟨none, 1, Direction.Sent, [], DataFormat.Text, "", "", none⟩] :
          List LogEntry).drop (1 - 100) := by
  refine ⟨by decide, ?_, ?_⟩
  · exact (claim_C3_log_buffer_eviction 100 (by decide) (by decide)
      [⟨none, 1, Direction.Sent, [], DataFormat.Text, "", "", none⟩]
      [] ⟨none, 1, Direction.Sent, [], DataFormat.Text, "", "", none⟩ 5).1
  · exact (claim_C3_log_buffer_eviction 100 (by decide) (by decide)
      [⟨none, 1, Direction.Sent, [], DataFormat.Text, "", "", none⟩]
      [] ⟨none, 1, Direction.Sent, [], DataFormat.Text, "", "", none⟩ 5).2.1

/-- C5: in Text display mode, a payload that fails strict decoding under
the active encoding — UTF-8 strict decode failure, or the GBK decoder
reporting errors — is rendered exactly as the hex formatter would render
it, with no substitution applied (the formatter returns the hex rendering
directly). -/
theorem claim_C5_decode_failure_hex_fallback
    (gbk_decode : List Nat → List Nat × Bool) (data : List Nat)
    (settings : DisplaySettings)
    (hfmt : settings.format = ReceiveDisplayFormat.Txt) :
    (settings.encoding = TextEncoding.Utf8 → utf8_decode data = none →
      format_data_for_display gbk_decode data settings = format_bytes_as_hex data)
    ∧ (settings.encoding = TextEncoding.Gbk → (gbk_decode data).2 = true →
      format_data_for_display gbk_decode data settings = format_bytes_as_hex data) := by
  constructor
  · intro henc hfail
    simp [format_data_for_display, hfmt, format_bytes_as_text, henc, hfail]
  · intro henc hfail
    rcases hg : gbk_decode data with ⟨d, he⟩
    rw [hg] at hfail
    simp only at hfail
    simp [format_data_for_display, hfmt, format_bytes_as_text, henc, hg, hfail]

/-- Witness for C5: the byte 0xFF is invalid UTF-8, and under the default
display settings (Text format, UTF-8) it renders as its hex dump; for GBK,
a decoder reporting errors forces the same fallback. -/
theorem claim_C5_decode_failure_hex_fallback_witness :
    DisplaySettings.default.format = ReceiveDisplayFormat.Txt
    ∧ DisplaySettings.default.encoding = TextEncoding.Utf8
    ∧ utf8_decode [0xFF] = none
    ∧ format_data_for_display (fun _ => ([], true)) [0xFF] DisplaySettings.default
        = format_bytes_as_hex [0xFF] := by
  have hdec : utf8_decode [0xFF] = none := by
    simp [utf8_decode, utf8_step, is_utf8_cont]
  exact ⟨rfl, rfl, hdec,
    (claim_C5_decode_failure_hex_fallback (fun _ => ([], true)) [0xFF]
      DisplaySettings.default rfl).1 rfl hdec⟩

/-- C7: `send_data` fails with an error when no port is connected, and a
transport write failure while connected is surfaced to the caller — in
both cases the whole manager state is returned unchanged: `is_connected`
stays true in the write-failure case (no automatic disconnect), no Sent
LogEntry is appended, and the sent-bytes statistics are untouched. -/
theorem claim_C7_send_data_error_paths
    (gbk_decode : List Nat → List Nat × Bool) (now : Nat) (now_str e : String)
    (wr : Except String Unit) (m : SerialManagerState) (data : List Nat) :
    (m.is_connected = false →
      send_data gbk_decode now now_str wr m data
        = (Except.error "No port is currently open", m))
    ∧ (m.is_connected = true → m.current_port = some () →
      send_data gbk_decode now now_str (Except.error e) m data
        = (Except.error e, m)) := by
  constructor
  · intro h
    simp [send_data, h]
  · intro h hp
    simp [send_data, h, hp]

/-- Witness for C7 at a concrete disconnected state and a concrete
connected state with a failing write. -/
theorem claim_C7_send_data_error_paths_witness :
    ((⟨none, none, false, none, [], SerialStats.default, false, 1000,
        FrameSegmentationConfig.default, none, none, none, none, "", 0,
        DisplaySettings.default⟩ : SerialManagerState).is_connected = false
      ∧ send_data (fun _ => ([], true)) 0 "" (Except.ok ())
          ⟨none, none, false, none, [], SerialStats.default, false, 1000,
            FrameSegmentationConfig.default, none, none, none, none, "", 0,
            DisplaySettings.default⟩ [1, 2]
        = (Except.error "No port is currently open",
            ⟨none, none, false, none, [], SerialStats.default, false, 1000,
              FrameSegmentationConfig.default, none, none, none, none, "", 0,
              DisplaySettings.default⟩))
    ∧ ((⟨some (), none, true, some "COM1", [], SerialStats.default, false, 1000,
        FrameSegmentationConfig.default, none, none, none, none, "", 0,
        DisplaySettings.default⟩ : SerialManagerState).is_connected = true
      ∧ send_data (fun _ => ([], true)) 0 "" (Except.error "write failed")
          ⟨some (), none, true, some "COM1", [], SerialStats.default, false, 1000,
            FrameSegmentationConfig.default, none, none, none, none, "", 0,
            DisplaySettings.default⟩ [1, 2]
        = (Except.error "write failed",
            ⟨some (), none, true, some "COM1", [], SerialStats.default, false, 1000,
              FrameSegmentationConfig.default, none, none, none, none, "", 0,
              DisplaySettings.default⟩)) :=
  ⟨⟨rfl, (claim_C7_send_data_error_paths (fun _ => ([], true)) 0 "" "write failed"
      (Except.ok ()) _ [1, 2]).1 rfl⟩,
    ⟨rfl, (claim_C7_send_data_error_paths (fun _ => ([], true)) 0 "" "write failed"
      (Except.error "write failed") _ [1, 2]).2 rfl rfl⟩⟩

/-- C8: `disconnect` on an already-disconnected manager is the identity on
the whole manager state (connection fields, logs, statistics, recording
channels and configuration all unchanged) and returns success. -/
theorem claim_C8_disconnect_idempotent (m : SerialManagerState)
    (h : m.is_connected = false) :
    disconnect m = (Except.ok (), m) := by
  simp [disconnect, h]

/-- Witness for C8 at a concrete disconnected state. -/
theorem claim_C8_disconnect_idempotent_witness :
    disconnect ⟨none, none, false, none, [], SerialStats.default, false, 1000,
        FrameSegmentationConfig.default, none, none, none, none, "", 0,
        DisplaySettings.default⟩
      = (Except.ok (), ⟨none, none, false, none, [], SerialStats.default, false, 1000,
        FrameSegmentationConfig.default, none, none, none, none, "", 0,
        DisplaySettings.default⟩) :=
  claim_C8_disconnect_idempotent _ rfl

lemma parse_hex_digits_some_all_hex (l : List Nat) :
    ∀ acc v : Nat, parse_hex_digits acc l = some v →
      ∀ b ∈ l, hex_digit_val b ≠ none := by
  induction l with
  | nil =>
    intro acc v _ b hb
    simp at hb
  | cons x xs ih =>
    intro acc v h b hb
    cases hx : hex_digit_val x with
    | none =>
      rw [parse_hex_digits, hx] at h
      simp at h
    | some d =>
      rw [parse_hex_digits, hx] at h
      simp only at h
      split at h
      · rcases List.mem_cons.mp hb with hbx | hbxs
        · subst hbx; rw [hx]; exact fun hc => Option.noConfusion hc
        · exact ih _ _ h b hbxs
      · simp at h

lemma from_str_radix_some_chunk (b1 b2 v : Nat)
    (h : from_str_radix_u8_hex [b1, b2] = some v) :
    (hex_digit_val b1 ≠ none ∨ b1 = 0x2B) ∧ hex_digit_val b2 ≠ none := by
  have h : (if b1 = 0x2B then
      (if ([b2] : List Nat).isEmpty then none else parse_hex_digits 0 [b2])
      else parse_hex_digits 0 [b1, b2]) = some v := h
  by_cases hb1 : b1 = 0x2B
  · rw [if_pos hb1] at h
    simp only [List.isEmpty_cons, if_neg] at h
    refine ⟨Or.inr hb1, ?_⟩
    exact parse_hex_digits_some_all_hex [b2] 0 v (by simpa using h) b2
      (List.mem_cons_self ..)
  · rw [if_neg hb1] at h
    exact ⟨Or.inl (parse_hex_digits_some_all_hex [b1, b2] 0 v h b1
        (List.mem_cons_self ..)),
      parse_hex_digits_some_all_hex [b1, b2] 0 v h b2
        (List.mem_cons_of_mem _ (List.mem_cons_self ..))⟩

lemma parse_hex_pairs_bad (l : List Nat)
    (hbad : ∃ b ∈ l, hex_digit_val b = none ∧ b ≠ 0x2B) :
    ∃ err, parse_hex_pairs l = Except.error err := by
  induction l using parse_hex_pairs.induct with
  | case1 =>
    obtain ⟨b, hb, _⟩ := hbad
    simp at hb
  | case2 b1 b2 rest v hv ih =>
    obtain ⟨b, hb, hnone, hneq⟩ := hbad
    rcases List.mem_cons.mp hb with hb1 | hb'
    · rw [hb1] at hnone hneq
      rcases (from_str_radix_some_chunk b1 b2 v hv).1 with hh | hh
      · exact absurd hnone hh
      · exact absurd hh hneq
    · rcases List.mem_cons.mp hb' with hb2 | hbrest
      · rw [hb2] at hnone
        exact absurd hnone (from_str_radix_some_chunk b1 b2 v hv).2
      · obtain ⟨err, herr⟩ := ih ⟨b, hbrest, hnone, hneq⟩
        refine ⟨err, ?_⟩
        rw [parse_hex_pairs, hv, herr]
        rfl
  | case3 b1 b2 rest hv =>
    refine ⟨"Invalid hex characters", ?_⟩
    rw [parse_hex_pairs, hv]
  | case4 x =>
    exact ⟨"Invalid hex characters", rfl⟩

lemma hex_string_to_bytes_bad (input : List Nat)
    (hbad : ∃ b ∈ input.filter (fun b => !(b == 0x20) && !(b == 0x0A)),
      hex_digit_val b = none ∧ b ≠ 0x2B) :
    ∃ err, hex_string_to_bytes input = Except.error err := by
  unfold hex_string_to_bytes
  by_cases hpar : (input.filter (fun b => !(b == 0x20) && !(b == 0x0A))).length % 2 ≠ 0
  · rw [if_pos hpar]
    exact ⟨_, rfl⟩
  · rw [if_neg hpar]
    exact parse_hex_pairs_bad _ hbad

/-- Counterexample to C6 as stated: the cleaned input `"+4"` has even
length and contains the non-hex character `'+'` (0x2B, not a hex digit),
yet it is not rejected: `u8::from_str_radix` accepts a leading plus sign,
so the conversion succeeds with the byte 0x04 and the send command goes
through to a transport write on a connected manager. -/
theorem claim_C6_counterexample :
    hex_digit_val 0x2B = none
    ∧ hex_string_to_bytes [0x2B, 0x34] = Except.ok [0x04]
    ∧ (send_data_hex_command (fun _ => ([], true)) 0 "" (Except.ok ())
        ⟨some (), none, true, some "COM1", [], SerialStats.default, false, 1000,
          FrameSegmentationConfig.default, none, none, none, none, "", 0,
          DisplaySettings.default⟩ [0x2B, 0x34]).1 = Except.ok () :=
  ⟨rfl, rfl, rfl⟩

/-- C6 amended: hex-format send input is stripped of spaces and newlines
and validated: `"48656c6c6f"` converts to the bytes of `"Hello"`;
odd-length-after-stripping input such as `"48 65 F"` is rejected before
any write (the manager state is untouched); input whose cleaned form
contains any character that is neither a hex digit nor a `'+'` is rejected
with a validation error; and every conversion error reaches the caller
with no write and no manager-state change. The one departure from the
original claim is the `'+'`: `u8::from_str_radix` accepts it as a sign at
the start of a two-character group. -/
theorem claim_C6_hex_validation_amended :
    hex_string_to_bytes
        [0x34, 0x38, 0x36, 0x35, 0x36, 0x63, 0x36, 0x63, 0x36, 0x66]
      = Except.ok [0x48, 0x65, 0x6C, 0x6C, 0x6F]
    ∧ (∀ (gbk_decode : List Nat → List Nat × Bool) (now : Nat) (now_str : String)
        (wr : Except String Unit) (m : SerialManagerState),
        send_data_hex_command gbk_decode now now_str wr m
          [0x34, 0x38, 0x20, 0x36, 0x35, 0x20, 0x46]
        = (Except.error "Hex string must have even number of characters", m))
    ∧ (∀ input : List Nat,
        (∃ b ∈ input.filter (fun b => !(b == 0x20) && !(b == 0x0A)),
          hex_digit_val b = none ∧ b ≠ 0x2B) →
        ∃ err, hex_string_to_bytes input = Except.error err)
    ∧ (∀ (input : List Nat) (err : String) (gbk_decode : List Nat → List Nat × Bool)
        (now : Nat) (now_str : String) (wr : Except String Unit)
        (m : SerialManagerState),
        hex_string_to_bytes input = Except.error err →
        send_data_hex_command gbk_decode now now_str wr m input
          = (Except.error err, m)) := by
  refine ⟨rfl, ?_, hex_string_to_bytes_bad, ?_⟩
  · intro gbk_decode now now_str wr m
    rfl
  · intro input err gbk_decode now now_str wr m herr
    unfold send_data_hex_command
    rw [herr]

/-- Witness for C6 amended: the input `"4G"` contains the non-hex,
non-plus character `'G'` and is rejected. -/
theorem claim_C6_hex_validation_amended_witness :
    (∃ b ∈ ([0x34, 0x47] : List Nat).filter (fun b => !(b == 0x20) && !(b == 0x0A)),
      hex_digit_val b = none ∧ b ≠ 0x2B)
    ∧ (∃ err, hex_string_to_bytes [0x34, 0x47] = Except.error err) :=
  ⟨by decide, claim_C6_hex_validation_amended.2.2.1 [0x34, 0x47] (by decide)⟩

/-- Bytes that are printable-ASCII-like for the space-visualization
statement: ASCII, and none of space, LF, CR, TAB, NUL, ESC (so neither the
space passes nor any other enabled substitution can touch them). -/
def plain_ascii (b : Nat) : Prop :=
  b ≤ 0x7F ∧ b ≠ 0x20 ∧ b ≠ 0x0A ∧ b ≠ 0x0D ∧ b ≠ 0x09 ∧ b ≠ 0x00 ∧ b ≠ 0x1B

instance (b : Nat) : Decidable (plain_ascii b) := by
  unfold plain_ascii; infer_instance

lemma utf8_step_ascii (b : Nat) (rest : List Nat) (hb : b ≤ 0x7F) :
    utf8_step b rest = some (b, rest) := by
  unfold utf8_step
  rw [if_pos hb]

lemma utf8_decode_ascii (l : List Nat) (h : ∀ b ∈ l, b ≤ 0x7F) :
    utf8_decode l = some l := by
  induction l with
  | nil => simp [utf8_decode]
  | cons b rest ih =>
    have hb : b ≤ 0x7F := h b (List.mem_cons_self ..)
    simp only [utf8_decode]
    split
    · rename_i sr hsr
      rw [utf8_step_ascii b rest hb] at hsr
      cases hsr
      rw [ih (fun x hx => h x (List.mem_cons_of_mem _ hx))]
      rfl
    · rename_i hnone
      rw [utf8_step_ascii b rest hb] at hnone
      cases hnone

lemma replace_char_not_mem (c r : Nat) (text : List Nat) (h : c ∉ text) :
    replace_char c r text = text := by
  induction text with
  | nil => rfl
  | cons x xs ih =>
    have hxc : ¬ x = c := fun he => h (by rw [← he]; exact List.mem_cons_self ..)
    have h' : c ∉ xs := fun hc => h (List.mem_cons_of_mem _ hc)
    have hxs := ih h'
    simp only [replace_char, List.map_cons, if_neg hxc] at hxs ⊢
    rw [hxs]

lemma split_on_lf_no_lf (text : List Nat) (h : 0x0A ∉ text) :
    split_on_lf text = [text] := by
  induction text with
  | nil => rfl
  | cons c rest ih =>
    have hc : ¬ c = 0x0A := fun he => h (by rw [← he]; exact List.mem_cons_self ..)
    have h' : (0x0A : Nat) ∉ rest := fun hh => h (List.mem_cons_of_mem _ hh)
    have step : split_on_lf (c :: rest) =
        (if c = 0x0A then [] :: split_on_lf rest
         else match split_on_lf rest with
         | l :: ls => (c :: l) :: ls
         | [] => [[c]]) := rfl
    rw [step, if_neg hc, ih h']

lemma dropWhile_all_false {α : Type} (p : α → Bool) (l : List α)
    (h : ∀ b ∈ l, p b = false) : List.dropWhile p l = l := by
  cases l with
  | nil => rfl
  | cons x xs =>
    rw [List.dropWhile_cons, if_neg]
    rw [h x (List.mem_cons_self ..)]
    simp

lemma dropWhile_replicate_append {α : Type} (p : α → Bool) (a : α)
    (hp : p a = true) (k : Nat) (t : List α) :
    List.dropWhile p (List.replicate k a ++ t) = List.dropWhile p t := by
  induction k with
  | zero => simp
  | succ n ih => simp [List.replicate_succ, List.dropWhile_cons, hp, ih]

lemma trim_end_spaces_spaces_suffix (u : List Nat) (hu : ∀ b ∈ u, b ≠ 0x20)
    (k : Nat) : trim_end_spaces (u ++ List.replicate k 0x20) = u := by
  unfold trim_end_spaces
  rw [List.reverse_append, List.reverse_replicate]
  rw [dropWhile_replicate_append _ 0x20 rfl k]
  rw [dropWhile_all_false _ _ (fun b hb => by
    simp only [beq_eq_false_iff_ne, ne_eq]
    exact hu b (List.mem_reverse.mp hb))]
  exact List.reverse_reverse u

lemma trim_end_spaces_no_space_suffix (x v : List Nat)
    (hv : ∀ b ∈ v, b ≠ 0x20) (hne : v ≠ []) :
    trim_end_spaces (x ++ v) = x ++ v := by
  unfold trim_end_spaces
  rw [List.reverse_append]
  cases hvr : v.reverse with
  | nil => exact absurd (by simpa using hvr) hne
  | cons c t =>
    have hc : c ∈ v := List.mem_reverse.mp (by rw [hvr]; exact List.mem_cons_self ..)
    rw [List.cons_append, List.dropWhile_cons, if_neg (by simp [hv c hc]),
      ← List.cons_append, ← hvr, ← List.reverse_append, List.reverse_reverse]

lemma fix_line_spaces_suffix (u : List Nat) (hu : ∀ b ∈ u, b ≠ 0x20) (k : Nat) :
    fix_line (u ++ List.replicate k 0x20) = u ++ List.replicate k 0x2423 := by
  unfold fix_line
  rw [trim_end_spaces_spaces_suffix u hu k]
  simp

lemma fix_line_no_space_suffix (x v : List Nat) (hv : ∀ b ∈ v, b ≠ 0x20)
    (hne : v ≠ []) : fix_line (x ++ v) = x ++ v := by
  unfold fix_line
  rw [trim_end_spaces_no_space_suffix x v hv hne]
  simp

lemma convert_trailing_no_lf (text : List Nat) (h : 0x0A ∉ text) :
    convert_trailing_spaces text = fix_line text := by
  unfold convert_trailing_spaces
  rw [split_on_lf_no_lf text h]
  simp

lemma go_cons_ne (k c : Nat) (rest : List Nat) (hc : c ≠ 0x20) :
    convert_interior_spaces_go k (c :: rest)
      = flush_spaces k ++ c :: convert_interior_spaces_go 0 rest := by
  simp [convert_interior_spaces_go, hc]

lemma go_replicate (k : Nat) : ∀ (j : Nat) (t : List Nat),
    convert_interior_spaces_go j (List.replicate k 0x20 ++ t)
      = convert_interior_spaces_go (j + k) t := by
  induction k with
  | zero => intro j t; simp
  | succ n ih =>
    intro j t
    rw [List.replicate_succ, List.cons_append]
    rw [show convert_interior_spaces_go j (0x20 :: (List.replicate n 0x20 ++ t))
        = convert_interior_spaces_go (j + 1) (List.replicate n 0x20 ++ t) from by
      simp [convert_interior_spaces_go]]
    rw [ih (j + 1) t]
    congr 1
    omega

lemma go_append_no_space (u : List Nat) (hu : ∀ b ∈ u, b ≠ 0x20) (t : List Nat) :
    convert_interior_spaces_go 0 (u ++ t) = u ++ convert_interior_spaces_go 0 t := by
  induction u with
  | nil => simp
  | cons c cs ih =>
    have hc : c ≠ 0x20 := hu c (List.mem_cons_self ..)
    rw [List.cons_append, go_cons_ne 0 c _ hc,
      ih (fun b hb => hu b (List.mem_cons_of_mem _ hb))]
    simp [flush_spaces]

lemma go_no_space (u : List Nat) (hu : ∀ b ∈ u, b ≠ 0x20) :
    convert_interior_spaces_go 0 u = u := by
  have h := go_append_no_space u hu []
  simpa [convert_interior_spaces_go, flush_spaces] using h

lemma apply_special_chars_to_spaces (cfg : SpecialCharConfig)
    (hen : cfg.enabled = true) (hsp : cfg.convert_spaces = true)
    (text : List Nat) (h10 : 0x0A ∉ text) (h13 : 0x0D ∉ text)
    (h9 : 0x09 ∉ text) (h0 : 0x00 ∉ text) (h27 : 0x1B ∉ text) :
    apply_special_chars cfg text = convert_spaces_visual text := by
  unfold apply_special_chars
  rw [hen]
  simp [hsp, replace_char_not_mem 0x0A 0x240A text h10,
    replace_char_not_mem 0x0D 0x240D text h13,
    replace_char_not_mem 0x09 0x2409 text h9,
    replace_char_not_mem 0x00 0x2400 text h0,
    replace_char_not_mem 0x1B 0x241B text h27]

lemma plain_mem_facts (u : List Nat) (hu : ∀ b ∈ u, plain_ascii b) :
    (∀ b ∈ u, b ≤ 0x7F) ∧ (∀ b ∈ u, b ≠ 0x20) ∧ (0x0A : Nat) ∉ u
      ∧ (0x0D : Nat) ∉ u ∧ (0x09 : Nat) ∉ u ∧ (0x00 : Nat) ∉ u
      ∧ (0x1B : Nat) ∉ u := by
  refine ⟨fun b hb => (hu b hb).1, fun b hb => (hu b hb).2.1,
    fun hmem => (hu _ hmem).2.2.1 rfl,
    fun hmem => (hu _ hmem).2.2.2.1 rfl,
    fun hmem => (hu _ hmem).2.2.2.2.1 rfl,
    fun hmem => (hu _ hmem).2.2.2.2.2.1 rfl,
    fun hmem => (hu _ hmem).2.2.2.2.2.2 rfl⟩

lemma not_mem_append_nat {c : Nat} {l1 l2 : List Nat} (h1 : c ∉ l1) (h2 : c ∉ l2) :
    c ∉ l1 ++ l2 :=
  fun h => Or.elim (List.mem_append.mp h) (fun x => h1 x) (fun x => h2 x)

lemma not_mem_replicate_nat (c a : Nat) (hne : c ≠ a) (k : Nat) :
    c ∉ List.replicate k a := by
  intro h
  exact hne (List.eq_of_mem_replicate h)

lemma all_le_append {l1 l2 : List Nat} (h1 : ∀ b ∈ l1, b ≤ 0x7F)
    (h2 : ∀ b ∈ l2, b ≤ 0x7F) : ∀ b ∈ l1 ++ l2, b ≤ 0x7F := by
  intro b hb
  rcases List.mem_append.mp hb with h | h
  · exact h1 b h
  · exact h2 b h

lemma all_le_replicate_space (k : Nat) : ∀ b ∈ List.replicate k 0x20, b ≤ 0x7F := by
  intro b hb
  rw [List.eq_of_mem_replicate hb]
  decide

/-- Text-mode formatting of an ASCII payload that contains none of the
non-space special characters reduces to the two space passes. -/
lemma format_text_spaces_stage (gbk_decode : List Nat → List Nat × Bool)
    (cfg : SpecialCharConfig) (hen : cfg.enabled = true)
    (hsp : cfg.convert_spaces = true) (w : List Nat)
    (hall : ∀ b ∈ w, b ≤ 0x7F) (h10 : (0x0A : Nat) ∉ w) (h13 : (0x0D : Nat) ∉ w)
    (h9 : (0x09 : Nat) ∉ w) (h0 : (0x00 : Nat) ∉ w) (h27 : (0x1B : Nat) ∉ w) :
    format_bytes_as_text gbk_decode w TextEncoding.Utf8 cfg
      = scalars_to_string (convert_interior_spaces_go 0 (fix_line w)) := by
  have hdec := utf8_decode_ascii w hall
  simp only [format_bytes_as_text, hdec]
  rw [apply_special_chars_to_spaces cfg hen hsp w h10 h13 h9 h0 h27]
  unfold convert_spaces_visual
  rw [convert_trailing_no_lf w h10]

/-- C9: with special-character visualization and space conversion enabled,
the Text-mode formatter renders a trailing run of spaces (k ≥ 1 spaces at
the end of the payload) and every interior run of 2 or more spaces as
U+2423 glyphs, while a single isolated interior space is left untouched as
a plain space. `u` and `v` range over ASCII bytes that none of the
substitutions touch. -/
theorem claim_C9_space_visualization (gbk_decode : List Nat → List Nat × Bool)
    (cfg : SpecialCharConfig) (hen : cfg.enabled = true)
    (hsp : cfg.convert_spaces = true) (u v : List Nat) (k : Nat)
    (hu : ∀ b ∈ u, plain_ascii b) (hv : ∀ b ∈ v, plain_ascii b) :
    (1 ≤ k →
      format_bytes_as_text gbk_decode (u ++ List.replicate k 0x20)
          TextEncoding.Utf8 cfg
        = scalars_to_string (u ++ List.replicate k 0x2423))
    ∧ (2 ≤ k → v ≠ [] →
      format_bytes_as_text gbk_decode (u ++ List.replicate k 0x20 ++ v)
          TextEncoding.Utf8 cfg
        = scalars_to_string (u ++ List.replicate k 0x2423 ++ v))
    ∧ (v ≠ [] →
      format_bytes_as_text gbk_decode (u ++ 0x20 :: v) TextEncoding.Utf8 cfg
        = scalars_to_string (u ++ 0x20 :: v)) := by
  obtain ⟨hu127, hu32, hu10, hu13, hu9, hu0, hu27⟩ := plain_mem_facts u hu
  obtain ⟨hv127, hv32, hv10, hv13, hv9, hv0, hv27⟩ := plain_mem_facts v hv
  refine ⟨?_, ?_, ?_⟩
  · intro _
    rw [format_text_spaces_stage gbk_decode cfg hen hsp _
      (all_le_append hu127 (all_le_replicate_space k))
      (not_mem_append_nat hu10 (not_mem_replicate_nat _ _ (by decide) k))
      (not_mem_append_nat hu13 (not_mem_replicate_nat _ _ (by decide) k))
      (not_mem_append_nat hu9 (not_mem_replicate_nat _ _ (by decide) k))
      (not_mem_append_nat hu0 (not_mem_replicate_nat _ _ (by decide) k))
      (not_mem_append_nat hu27 (not_mem_replicate_nat _ _ (by decide) k))]
    rw [fix_line_spaces_suffix u hu32 k]
    rw [go_append_no_space u hu32 _]
    rw [go_no_space _ (fun b hb => by rw [List.eq_of_mem_replicate hb]; decide)]
  · intro h2k hvne
    rw [format_text_spaces_stage gbk_decode cfg hen hsp _
      (all_le_append (all_le_append hu127 (all_le_replicate_space k)) hv127)
      (not_mem_append_nat (not_mem_append_nat hu10
        (not_mem_replicate_nat _ _ (by decide) k)) hv10)
      (not_mem_append_nat (not_mem_append_nat hu13
        (not_mem_replicate_nat _ _ (by decide) k)) hv13)
      (not_mem_append_nat (not_mem_append_nat hu9
        (not_mem_replicate_nat _ _ (by decide) k)) hv9)
      (not_mem_append_nat (not_mem_append_nat hu0
        (not_mem_replicate_nat _ _ (by decide) k)) hv0)
      (not_mem_append_nat (not_mem_append_nat hu27
        (not_mem_replicate_nat _ _ (by decide) k)) hv27)]
    rw [fix_line_no_space_suffix (u ++ List.replicate k 0x20) v hv32 hvne]
    rw [List.append_assoc]
    rw [go_append_no_space u hu32 _]
    rw [go_replicate k 0 v, Nat.zero_add]
    cases v with
    | nil => exact absurd rfl hvne
    | cons c t =>
      rw [go_cons_ne k c t (hv32 c (List.mem_cons_self ..))]
      rw [show flush_spaces k = List.replicate k 0x2423 from by
        simp [flush_spaces, h2k]]
      rw [go_no_space t (fun b hb => hv32 b (List.mem_cons_of_mem _ hb))]
      rw [← List.append_assoc]
  · intro hvne
    rw [show u ++ 0x20 :: v = (u ++ [0x20]) ++ v from by simp]
    rw [format_text_spaces_stage gbk_decode cfg hen hsp _
      (all_le_append (all_le_append hu127 (by decide)) hv127)
      (not_mem_append_nat (not_mem_append_nat hu10 (by decide)) hv10)
      (not_mem_append_nat (not_mem_append_nat hu13 (by decide)) hv13)
      (not_mem_append_nat (not_mem_append_nat hu9 (by decide)) hv9)
      (not_mem_append_nat (not_mem_append_nat hu0 (by decide)) hv0)
      (not_mem_append_nat (not_mem_append_nat hu27 (by decide)) hv27)]
    rw [fix_line_no_space_suffix (u ++ [0x20]) v hv32 hvne]
    rw [show (u ++ [0x20]) ++ v = u ++ (List.replicate 1 0x20 ++ v) from by simp]
    rw [go_append_no_space u hu32 _]
    rw [go_replicate 1 0 v, Nat.zero_add]
    cases v with
    | nil => exact absurd rfl hvne
    | cons c t =>
      rw [go_cons_ne 1 c t (hv32 c (List.mem_cons_self ..))]
      rw [show flush_spaces 1 = [0x20] from rfl]
      rw [go_no_space t (fun b hb => hv32 b (List.mem_cons_of_mem _ hb))]
      simp

/-- Witness for C9 at u = "a", v = "b", k = 2 with the default
special-character configuration. -/
theorem claim_C9_space_visualization_witness :
    SpecialCharConfig.default.enabled = true
    ∧ SpecialCharConfig.default.convert_spaces = true
    ∧ (∀ b ∈ ([0x61] : List Nat), plain_ascii b)
    ∧ (∀ b ∈ ([0x62] : List Nat), plain_ascii b)
    ∧ (2 ≤ 2 → ([0x62] : List Nat) ≠ [] →
      format_bytes_as_text (fun _ => ([], true))
          ([0x61] ++ List.replicate 2 0x20 ++ [0x62])
          TextEncoding.Utf8 SpecialCharConfig.default
        = scalars_to_string ([0x61] ++ List.replicate 2 0x2423 ++ [0x62])) :=
  ⟨rfl, rfl, by decide, by decide,
    (claim_C9_space_visualization (fun _ => ([], true)) SpecialCharConfig.default
      rfl rfl [0x61] [0x62] 2 (by decide) (by decide)).2.1⟩

end RSerial
